import Mathlib

/-!
# Verification of the `dotselect` dotpath library

Shallow embedding of `src/dotselect/core.py`: a path compiler
(`parse_path`, with predicate-literal coercion `coerce_value`) and a
recursive traversal engine (`traverse`), plus the thin `Path` facade and
the free functions `find_all` / `find_first`.

Python data trees (the `Any` values the engine walks) are modelled by
the inductive type `Val`: maps become association lists in insertion
order (Python dicts preserve insertion order), sequences become lists,
and scalars become the five scalar constructors.  Python floats are
modelled as rationals (`Rat`): every float literal appearing in paths is
a short decimal numeral, exactly representable, and Python's `==`
between `int` and `float` is numeric-value equality, which rationals
capture.
-/

namespace Dotselect

/-- A Python value as consumed by the traversal engine: dict / list /
scalar (str, int, float, bool, None). -/
inductive Val where
  | null
  | bool (b : Bool)
  | int (n : Int)
  | float (q : Rat)
  | str (s : String)
  | list (xs : List Val)
  | dict (entries : List (String × Val))

/-- The result of `_coerce_value`: `Union[str, int, float, bool, None]`. -/
inductive Lit where
  | null
  | bool (b : Bool)
  | int (n : Int)
  | float (q : Rat)
  | str (s : String)
  deriving DecidableEq, Repr

/-- One compiled path segment (the dicts `{'type': ...}` built by
`_parse_path`). -/
inductive Seg where
  | key (value : String)
  | index (value : Int)
  | wildcard
  | descendant
  | predicate (field : String) (key : String) (value : Lit)
  deriving DecidableEq, Repr

/-- Python dict lookup on an insertion-ordered association list
(keys are unique in a Python dict; first match is returned). -/
def dlookup : List (String × Val) → String → Option Val
  | [], _ => none
  | (k, v) :: rest, key => if k = key then some v else dlookup rest key

/-- Python sequence indexing `xs[n]` with negative-index support:
`xs[n]` is `xs[len + n]` for `n < 0`. -/
def pyGet (xs : List Val) (n : Int) : Option Val :=
  if n < 0 then xs.get? (n + xs.length).toNat else xs.get? n.toNat

/-- The numeric value of a `Val` under Python `==`: `bool` is a subclass
of `int` (`True == 1`), and `int`/`float` compare by numeric value. -/
def valNum : Val → Option Rat
  | .bool b => some (if b then 1 else 0)
  | .int n => some (n : Rat)
  | .float q => some q
  | _ => none

/-- The numeric value of a `Lit` under Python `==`. -/
def litNum : Lit → Option Rat
  | .bool b => some (if b then 1 else 0)
  | .int n => some (n : Rat)
  | .float q => some q
  | _ => none

/-- Python `==` between a tree value and a compiled predicate literal:
numbers (bool/int/float) compare numerically, strings compare with
strings, `None` equals only `None`; containers never equal a scalar. -/
def pyEqLit (v : Val) (l : Lit) : Bool :=
  match valNum v, litNum l with
  | some a, some b => a = b
  | _, _ =>
    match v, l with
    | .null, .null => true
    | .str s, .str t => s = t
    | _, _ => false

/-- The per-element predicate test from `_traverse`:
`isinstance(item, dict) and item.get(key) == value` (a missing key makes
`item.get(key)` return `None`). -/
def matchesPred (item : Val) (key : String) (l : Lit) : Bool :=
  match item with
  | .dict entries => pyEqLit ((dlookup entries key).getD Val.null) l
  | _ => false

/-- Auxiliary size lemma: a value found by `dlookup` is smaller than the
entry list it came from. -/
theorem sizeOf_dlookup_lt (xs : List (String × Val)) (k : String) (v : Val)
    (h : dlookup xs k = some v) : sizeOf v < sizeOf xs := by
  induction xs with
  | nil => simp [dlookup] at h
  | cons p rest ih =>
    obtain ⟨a, b⟩ := p
    by_cases hk : a = k
    · simp [dlookup, hk] at h
      subst h
      simp
      omega
    · simp [dlookup, hk] at h
      have := ih h
      simp
      omega

/-- Auxiliary size lemma: a value found by `pyGet` is smaller than the
list it came from. -/
theorem sizeOf_pyGet_lt (xs : List Val) (n : Int) (v : Val)
    (h : pyGet xs n = some v) : sizeOf v < sizeOf xs := by
  unfold pyGet at h
  split at h <;> exact List.sizeOf_lt_of_mem (List.get?_mem h)

mutual

/-- Model of `_traverse(data, segments)`: the recursive traversal engine.  The
lazy generator is modelled as the (finite) list of yielded values, in
yield order. -/
def traverse (data : Val) (segs : List Seg) : List Val :=
  match segs with
  | [] => [data]
  | head :: tail =>
    match head with
    | .descendant =>
      traverse data tail ++
      (match data with
       | .dict xs => traverseEntries xs (Seg.descendant :: tail)
       | .list xs => traverseItems xs (Seg.descendant :: tail)
       | _ => [])
    | .key k =>
      (match data with
       | .dict xs =>
         (match dlookup xs k with
          | some v => traverse v tail
          | none => [])
       | _ => [])
    | .index n =>
      (match data with
       | .list xs =>
         if -(xs.length : Int) ≤ n ∧ n < (xs.length : Int) then
           (match pyGet xs n with
            | some v => traverse v tail
            | none => [])
         else []
       | _ => [])
    | .wildcard =>
      (match data with
       | .dict xs => traverseEntries xs tail
       | .list xs => traverseItems xs tail
       | _ => [])
    | .predicate field key lit =>
      (match data with
       | .dict xs =>
         (match dlookup xs field with
          | some (Val.list items) => traversePredItems items key lit tail
          | _ => [])
       | _ => [])

/-- Model of `for value in data.values(): yield from _traverse(value, segs)`. -/
def traverseEntries (xs : List (String × Val)) (segs : List Seg) : List Val :=
  match xs with
  | [] => []
  | (_, v) :: rest => traverse v segs ++ traverseEntries rest segs

/-- Model of `for item in data: yield from _traverse(item, segs)`. -/
def traverseItems (xs : List Val) (segs : List Seg) : List Val :=
  match xs with
  | [] => []
  | v :: rest => traverse v segs ++ traverseItems rest segs

/-- The predicate filter loop of `_traverse`. -/
def traversePredItems (xs : List Val) (key : String) (lit : Lit)
    (tail : List Seg) : List Val :=
  match xs with
  | [] => []
  | item :: rest =>
    (if matchesPred item key lit then traverse item tail else []) ++
    traversePredItems rest key lit tail

end

/-- The map values of a dict node, the items of a list node: the
children one descent step reaches in `_traverse`'s `descendant` and
`wildcard` branches. -/
def childVals : Val → List Val
  | .dict xs => xs.map Prod.snd
  | .list xs => xs
  | _ => []

mutual

/-- Depth-first pre-order enumeration of every node of a tree: the node
itself first, then the nodes below each child, children in dict
insertion order / list index order. -/
def preorder (v : Val) : List Val :=
  v :: (match v with
        | .dict xs => preorderEntries xs
        | .list xs => preorderItems xs
        | _ => [])

/-- Pre-order enumeration below each value of a dict entry list. -/
def preorderEntries : List (String × Val) → List Val
  | [] => []
  | (_, x) :: rest => preorder x ++ preorderEntries rest

/-- Pre-order enumeration below each item of a list. -/
def preorderItems : List Val → List Val
  | [] => []
  | x :: rest => preorder x ++ preorderItems rest

end

/-- Characters Python's `str.isdigit` accepts in the modelled fragment:
the ASCII decimal digits (Unicode category Nd) plus the compatibility
superscript digits (category No), which `str.isdigit` also accepts but
`int()` rejects. -/
def pyCharIsDigit (c : Char) : Bool :=
  c.isDigit || c = '¹' || c = '²' || c = '³'

/-- Python `part.isdigit()`: nonempty and every character is a digit
character (decimal or superscript). -/
def pyIsDigit (part : List Char) : Bool :=
  !part.isEmpty && part.all pyCharIsDigit

/-- The numeric value of a string of decimal digits. -/
def digitsToNat (ds : List Char) : Nat :=
  ds.foldl (fun a c => 10 * a + (c.toNat - '0'.toNat)) 0

/-- Python `int(s)` (modelled fragment: optional sign followed by ASCII
decimal digits; surrounding whitespace, underscores and non-ASCII Nd
digits are outside the fragment). -/
def pyIntParse : List Char → Option Int
  | '+' :: ds =>
    if !ds.isEmpty && ds.all Char.isDigit then some (digitsToNat ds) else none
  | '-' :: ds =>
    if !ds.isEmpty && ds.all Char.isDigit then some (-(digitsToNat ds : Int)) else none
  | ds =>
    if !ds.isEmpty && ds.all Char.isDigit then some (digitsToNat ds) else none

/-- Python `float(s)` for an unsigned numeral `digits [. digits]` with
at least one digit (exponents, `inf`/`nan`, whitespace and underscores
are outside the modelled fragment).  The value is exact, as a rational. -/
def pyFloatParseUnsigned (ds : List Char) : Option Rat :=
  let ip := ds.takeWhile Char.isDigit
  let rest := ds.dropWhile Char.isDigit
  match rest with
  | [] => if !ip.isEmpty then some (digitsToNat ip) else none
  | '.' :: fp =>
    if fp.all Char.isDigit && (!ip.isEmpty || !fp.isEmpty) then
      some ((digitsToNat ip : Rat) + (digitsToNat fp : Rat) / (10 ^ fp.length))
    else none
  | _ => none

/-- Python `float(s)`: optional sign, then an unsigned numeral. -/
def pyFloatParse : List Char → Option Rat
  | '+' :: ds => pyFloatParseUnsigned ds
  | '-' :: ds => (pyFloatParseUnsigned ds).map Neg.neg
  | ds => pyFloatParseUnsigned ds

/-- Is `v` wrapped by character `c` at both ends (Python
`v.startswith(c) and v.endswith(c)`; a one-character string satisfies
both)? -/
def quotedBy (c : Char) (v : List Char) : Bool :=
  v.head? = some c && v.getLast? = some c

/-- The `try` block of `_coerce_value`: `float(value_str)` when the
text contains a dot, else `int(value_str)`; `none` models the caught
`ValueError`. -/
def numericParseOf (value_str : List Char) : Option Lit :=
  if value_str.contains '.' then (pyFloatParse value_str).map Lit.float
  else (pyIntParse value_str).map Lit.int

/-- Model of `_coerce_value(value_str)`: converts a predicate value string into a
typed literal.  Case-insensitive true/false, then null/none, then a
numeric parse (`float` when the text contains a dot, else `int`), and on
numeric failure one layer of matching quotes is stripped; otherwise the
raw text stands as a string. -/
def coerce_value (value_str : List Char) : Lit :=
  let val_lower : String := ⟨value_str.map Char.toLower⟩
  if val_lower = "true" then .bool true
  else if val_lower = "false" then .bool false
  else if val_lower = "null" ∨ val_lower = "none" then .null
  else
    match numericParseOf value_str with
    | some l => l
    | none =>
      if quotedBy '"' value_str || quotedBy '\'' value_str then
        .str ⟨(value_str.drop 1).dropLast⟩
      else .str ⟨value_str⟩

/-- A character of Python's regex class `\w` (modelled fragment: ASCII
letters, digits and underscore). -/
def isWordChar (c : Char) : Bool :=
  c.isAlphanum || c = '_'

/-- Model of `re.match(r"(\w+)\[(\w+)=([^\]]+)\]", part)`: anchored at the start
only (trailing text is ignored), each group nonempty, the value group
running greedily up to the next `]`.  Returns the three groups. -/
def matchPredRegex (part : List Char) : Option (List Char × List Char × List Char) :=
  let f := part.takeWhile isWordChar
  let r1 := part.dropWhile isWordChar
  if f.isEmpty then none else
  match r1 with
  | '[' :: r2 =>
    let k := r2.takeWhile isWordChar
    let r3 := r2.dropWhile isWordChar
    if k.isEmpty then none else
    match r3 with
    | '=' :: r4 =>
      let v := r4.takeWhile (fun c => c ≠ ']')
      let r5 := r4.dropWhile (fun c => c ≠ ']')
      if v.isEmpty then none else
      match r5 with
      | ']' :: _ => some (f, k, v)
      | _ => none
    | _ => none
  | _ => none

/-- Model of `re.split(r'\.', path)`: split on every literal dot; the empty
string splits to `[""]`. -/
def splitDot : List Char → List (List Char)
  | [] => [[]]
  | c :: cs =>
    if c = '.' then [] :: splitDot cs
    else
      match splitDot cs with
      | t :: ts => (c :: t) :: ts
      | [] => [[c]]

/-- Compilation of one dot-separated part into a segment, following
`_parse_path`'s branch order: predicate regex, `*`, `**`, `isdigit`
(where `int(part)` raises a `ValueError` on a non-decimal digit
character, modelled as `.error`), and the key fallback. -/
def parseToken (part : List Char) : Except String Seg :=
  match matchPredRegex part with
  | some (f, k, v) => .ok (.predicate ⟨f⟩ ⟨k⟩ (coerce_value v))
  | none =>
    if part = ['*'] then .ok .wildcard
    else if part = ['*', '*'] then .ok .descendant
    else if pyIsDigit part then
      if part.all Char.isDigit then .ok (.index (digitsToNat part))
      else .error "invalid literal for int() with base 10"
    else .ok (.key ⟨part⟩)

/-- Model of `_parse_path(path)`: split on dots, compile each part in order; a
`ValueError` raised for a part propagates out of the whole compilation. -/
def parse_path (path : String) : Except String (List Seg) :=
  (splitDot path.data).mapM parseToken

/-- The `Path` class: the original string plus the compiled segments. -/
structure Path where
  path_str : String
  segments : List Seg

/-- Model of `Path(path_str)`: the constructor runs `_parse_path`, so a
`ValueError` raised there propagates (modelled as `.error`). -/
def Path.make (path_str : String) : Except String Path :=
  (parse_path path_str).map (fun segs => ⟨path_str, segs⟩)

/-- Model of `Path.find_all(data)`: delegate to the traversal engine. -/
def Path.find_all (p : Path) (data : Val) : List Val :=
  traverse data p.segments

/-- Model of `Path.find_first(data)`: `next(self.find_all(data))`, with
`StopIteration` caught and turned into `None`. -/
def Path.find_first (p : Path) (data : Val) : Option Val :=
  match p.find_all data with
  | [] => none
  | v :: _ => some v

/-- The free function `find_all(data, path_str)`:
`Path(path_str).find_all(data)` (a compile error propagates). -/
def find_all (data : Val) (path_str : String) : Except String (List Val) :=
  (Path.make path_str).map (fun p => p.find_all data)

/-- The free function `find_first(data, path_str)`:
`Path(path_str).find_first(data)` (a compile error propagates). -/
def find_first (data : Val) (path_str : String) : Except String (Option Val) :=
  (Path.make path_str).map (fun p => p.find_first data)

/-! ## Traversal unfolding lemmas -/

theorem traverse_nil (data : Val) : traverse data [] = [data] := by
  rw [traverse.eq_def]

theorem traverseEntries_eq_flatMap (xs : List (String × Val)) (segs : List Seg) :
    traverseEntries xs segs = (xs.map Prod.snd).flatMap (fun v => traverse v segs) := by
  induction xs with
  | nil => rw [traverseEntries.eq_def]; rfl
  | cons p rest ih =>
    obtain ⟨k, v⟩ := p
    rw [traverseEntries.eq_def]
    simpa using ih

theorem traverseItems_eq_flatMap (xs : List Val) (segs : List Seg) :
    traverseItems xs segs = xs.flatMap (fun v => traverse v segs) := by
  induction xs with
  | nil => rw [traverseItems.eq_def]; rfl
  | cons v rest ih =>
    rw [traverseItems.eq_def]
    simpa using ih

theorem traverse_descendant (data : Val) (tail : List Seg) :
    traverse data (Seg.descendant :: tail)
      = traverse data tail
        ++ (childVals data).flatMap (fun c => traverse c (Seg.descendant :: tail)) := by
  rw [traverse.eq_def]
  cases data <;>
    simp [childVals, traverseEntries_eq_flatMap, traverseItems_eq_flatMap]

theorem preorderEntries_eq_flatMap (xs : List (String × Val)) :
    preorderEntries xs = (xs.map Prod.snd).flatMap preorder := by
  induction xs with
  | nil => rfl
  | cons p rest ih =>
    obtain ⟨k, v⟩ := p
    rw [preorderEntries]
    simpa using ih

theorem preorderItems_eq_flatMap (xs : List Val) :
    preorderItems xs = xs.flatMap preorder := by
  induction xs with
  | nil => rfl
  | cons v rest ih =>
    rw [preorderItems]
    simpa using ih

theorem preorder_eq (v : Val) :
    preorder v = v :: (childVals v).flatMap preorder := by
  rw [preorder.eq_def]
  cases v <;>
    simp [childVals, preorderEntries_eq_flatMap, preorderItems_eq_flatMap]

theorem sizeOf_childVals_lt (data c : Val) (hc : c ∈ childVals data) :
    sizeOf c < sizeOf data := by
  cases data with
  | dict xs =>
    simp only [childVals, List.mem_map] at hc
    obtain ⟨⟨k, v⟩, hmem, hv⟩ := hc
    simp only at hv
    subst hv
    have h1 : sizeOf (k, v) < sizeOf xs := List.sizeOf_lt_of_mem hmem
    simp at h1 ⊢
    omega
  | list xs =>
    have h1 : sizeOf c < sizeOf xs := List.sizeOf_lt_of_mem hc
    simp
    omega
  | null => simp [childVals] at hc
  | bool b => simp [childVals] at hc
  | int n => simp [childVals] at hc
  | float q => simp [childVals] at hc
  | str s => simp [childVals] at hc

/-- The central descendant lemma: with a `descendant` head, the engine
enumerates exactly the pre-order node list, matching the remaining tail
at each node. -/
theorem traverse_descendant_eq_preorder (data : Val) (tail : List Seg) :
    traverse data (Seg.descendant :: tail)
      = (preorder data).flatMap (fun n => traverse n tail) := by
  rw [traverse_descendant, preorder_eq, List.flatMap_cons, List.flatMap_assoc]
  congr 1
  exact List.flatMap_congr fun c hc => traverse_descendant_eq_preorder c tail
termination_by sizeOf data
decreasing_by exact sizeOf_childVals_lt data c hc

/-- Facade computation helper: when compilation succeeds, the free
`find_all` is the traversal of the compiled segments. -/
theorem find_all_eq (data : Val) (s : String) (segs : List Seg)
    (h : parse_path s = Except.ok segs) :
    find_all data s = Except.ok (traverse data segs) := by
  rw [find_all, Path.make, h]
  rfl

/-- Facade computation helper: when compilation succeeds, the free
`find_first` is `Path.find_first` on the compiled path. -/
theorem find_first_eq (data : Val) (s : String) (segs : List Seg)
    (h : parse_path s = Except.ok segs) :
    find_first data s = Except.ok (Path.find_first ⟨s, segs⟩ data) := by
  rw [find_first, Path.make, h]
  rfl

/-! ## Claim theorems -/

/-- C1: for a `descendant` head segment, the zero-descent match of the
current node against the remaining tail comes first, deeper matches
follow in map-insertion/sequence-index order, and altogether the engine
attempts the tail at exactly the depth-first pre-order enumeration of
every node at depth ≥ 0 below (and including) the current node. -/
theorem descendant_head_is_preorder_enumeration (data : Val) (tail : List Seg) :
    traverse data (Seg.descendant :: tail)
      = traverse data tail
        ++ (childVals data).flatMap (fun c => traverse c (Seg.descendant :: tail))
    ∧ traverse data (Seg.descendant :: tail)
      = (preorder data).flatMap (fun n => traverse n tail)
    ∧ preorder data = data :: (childVals data).flatMap preorder :=
  ⟨traverse_descendant data tail, traverse_descendant_eq_preorder data tail,
    preorder_eq data⟩

/-- C3 counterexample: the empty path string does NOT compile to the
empty segment list; `find_all(data, "")` on `{"a": 1}` yields `[]`, not
`[data]` as the claim states. -/
theorem empty_path_string_counterexample :
    find_all (Val.dict [("a", Val.int 1)]) "" = Except.ok []
    ∧ find_all (Val.dict [("a", Val.int 1)]) ""
        ≠ Except.ok [Val.dict [("a", Val.int 1)]] := by
  refine ⟨?_, ?_⟩ <;>
    rw [find_all_eq (Val.dict [("a", Val.int 1)]) "" [Seg.key ""] rfl] <;>
    simp [traverse.eq_def, dlookup]

/-- C3 amended: traversal with the empty *segment list* yields exactly
`[data]`; but the empty path *string* compiles to a single `key ""`
segment (splitting `""` on dots gives `[""]`), so `find_all(data, "")`
yields the value at an empty-string key when the map has one and nothing
otherwise. -/
theorem empty_segments_identity_empty_string_key :
    (∀ data : Val, traverse data [] = [data])
    ∧ parse_path "" = Except.ok [Seg.key ""]
    ∧ find_all (Val.dict [("", Val.int 7)]) "" = Except.ok [Val.int 7] := by
  refine ⟨traverse_nil, rfl, ?_⟩
  rw [find_all_eq (Val.dict [("", Val.int 7)]) "" [Seg.key ""] rfl]
  simp [traverse.eq_def, dlookup]

/-- C4 counterexample: a bracket predicate whose value contains a
literal dot does NOT compile to a single `predicate` segment: the path
`items[v=1.5]` splits at the dot into two `key` segments, and the
resulting path matches nothing on data where the intended predicate
would match. -/
theorem predicate_value_dot_counterexample :
    parse_path "items[v=1.5]" = Except.ok [Seg.key "items[v=1", Seg.key "5]"]
    ∧ find_all (Val.dict [("items", Val.list [Val.dict [("v", Val.float (3 / 2))]])])
        "items[v=1.5]" = Except.ok [] := by
  refine ⟨rfl, ?_⟩
  rw [find_all_eq (Val.dict [("items", Val.list [Val.dict [("v", Val.float (3 / 2))]])])
        "items[v=1.5]" [Seg.key "items[v=1", Seg.key "5]"] rfl]
  simp [traverse.eq_def, dlookup]

/-- C4 amended: splitting on the literal dot happens over the whole
string before bracket content is inspected, so a dot inside a bracket
predicate IS a segment separator: `items[v=1.5]` tokenizes to
`items[v=1` and `5]`, each falling through to a `key` segment, and the
compiled path yields no match where the predicate would; the same
predicate with a dot-free value compiles to a single `predicate`
segment. -/
theorem predicate_value_dot_splits :
    splitDot "items[v=1.5]".data = ["items[v=1".data, "5]".data]
    ∧ parse_path "items[v=1.5]" = Except.ok [Seg.key "items[v=1", Seg.key "5]"]
    ∧ find_all (Val.dict [("items", Val.list [Val.dict [("v", Val.float (3 / 2))]])])
        "items[v=1.5]" = Except.ok []
    ∧ parse_path "items[v=15]"
        = Except.ok [Seg.predicate "items" "v" (Lit.int 15)] := by
  refine ⟨rfl, rfl, ?_, rfl⟩
  rw [find_all_eq (Val.dict [("items", Val.list [Val.dict [("v", Val.float (3 / 2))]])])
        "items[v=1.5]" [Seg.key "items[v=1", Seg.key "5]"] rfl]
  simp [traverse.eq_def, dlookup]

/-- C5: a token starting with a minus sign is never an `index` segment —
the digit-only check rejects it and it falls through to a `key` segment
with the numeral as its name; a `key` segment matches nothing on a
sequence, so `a.-1` on `{"a": [1,2,3]}` is empty, even though the
engine's own index matching handles any in-range negative index. -/
theorem negative_index_literal_is_key_segment :
    (∀ rest : List Char, parseToken ('-' :: rest) = Except.ok (Seg.key ⟨'-' :: rest⟩))
    ∧ parse_path "a.-1" = Except.ok [Seg.key "a", Seg.key "-1"]
    ∧ find_all (Val.dict [("a", Val.list [Val.int 1, Val.int 2, Val.int 3])]) "a.-1"
        = Except.ok []
    ∧ (∀ (name : String) (xs : List Val) (tail : List Seg),
        traverse (Val.list xs) (Seg.key name :: tail) = [])
    ∧ (∀ (xs : List Val) (n : Int) (tail : List Seg) (v : Val),
        -(xs.length : Int) ≤ n → n < (xs.length : Int) → pyGet xs n = some v →
        traverse (Val.list xs) (Seg.index n :: tail) = traverse v tail) := by
  refine ⟨?_, rfl, ?_, ?_, ?_⟩
  · intro rest
    simp [parseToken, matchPredRegex, isWordChar, pyIsDigit, pyCharIsDigit]
  · rw [find_all_eq (Val.dict [("a", Val.list [Val.int 1, Val.int 2, Val.int 3])])
          "a.-1" [Seg.key "a", Seg.key "-1"] rfl]
    simp [traverse.eq_def, dlookup]
  · intro name xs tail
    rw [traverse.eq_def]
  · intro xs n tail v h1 h2 hv
    rw [traverse.eq_def]
    simp only [if_pos (And.intro h1 h2), hv]

/-- C5 witness. -/
theorem negative_index_literal_is_key_segment_witness :
    traverse (Val.list [Val.int 1, Val.int 2, Val.int 3]) [Seg.index (-1)]
      = traverse (Val.int 3) [] :=
  negative_index_literal_is_key_segment.2.2.2.2
    [Val.int 1, Val.int 2, Val.int 3] (-1) [] (Val.int 3)
    (by decide) (by decide) rfl

/-- C6 (claimed: compile never raises): refuted by the path string `²`
(U+00B2, superscript two): Python's `str.isdigit` accepts it, so
`_parse_path` runs `int(part)`, which raises `ValueError`; compilation
of `²` therefore raises instead of producing a segment list. -/
theorem compile_raises_on_superscript_two :
    parse_path "²" = Except.error "invalid literal for int() with base 10"
    ∧ pyIsDigit "²".data = true
    ∧ pyIntParse "²".data = none
    ∧ find_all (Val.dict [("a", Val.int 1)]) "²"
        = Except.error "invalid literal for int() with base 10" :=
  ⟨rfl, rfl, rfl, rfl⟩

/-- C2 counterexample: predicate matching is Python `==`, which coerces
across the numeric types: the element `{"id": True}` (boolean) matches
the integer literal `1` of `items[id=1]`, so equality is NOT exact for
every pair of literal types. -/
theorem predicate_cross_type_numeric_counterexample :
    pyEqLit (Val.bool true) (Lit.int 1) = true
    ∧ find_all (Val.dict [("items", Val.list [Val.dict [("id", Val.bool true)]])])
        "items[id=1]" = Except.ok [Val.dict [("id", Val.bool true)]] := by
  refine ⟨rfl, ?_⟩
  rw [find_all_eq (Val.dict [("items", Val.list [Val.dict [("id", Val.bool true)]])])
        "items[id=1]" [Seg.predicate "items" "id" (Lit.int 1)] rfl]
  simp [traverse.eq_def, traversePredItems.eq_def, dlookup, matchesPred, pyEqLit,
    valNum, litNum]

/-- C2 amended: predicate equality is Python `==`: the numeric types
(bool, int, float) compare by numeric value — so cross-type matches such
as `True == 1` and `2 == 2.0` DO occur — while a string equals only a
string of the same text, `None` equals only `None`, and a container
never equals a literal; in particular an element whose `id` is the
string `"2"` does not match the integer literal `2` of `items[id=2]`. -/
theorem predicate_equality_is_python_eq :
    (∀ (v : Val) (l : Lit), pyEqLit v l = true ↔
      ((∃ q : Rat, valNum v = some q ∧ litNum l = some q)
        ∨ (v = Val.null ∧ l = Lit.null)
        ∨ (∃ s : String, v = Val.str s ∧ l = Lit.str s)))
    ∧ (∀ (s : String) (n : Int), pyEqLit (Val.str s) (Lit.int n) = false)
    ∧ find_all
        (Val.dict [("items",
          Val.list [Val.dict [("id", Val.str "2")], Val.dict [("id", Val.int 2)]])])
        "items[id=2]" = Except.ok [Val.dict [("id", Val.int 2)]] := by
  refine ⟨?_, ?_, ?_⟩
  · intro v l
    cases v <;> cases l <;> simp [pyEqLit, valNum, litNum, eq_comm]
  · intro s n
    rfl
  · rw [find_all_eq
        (Val.dict [("items",
          Val.list [Val.dict [("id", Val.str "2")], Val.dict [("id", Val.int 2)]])])
        "items[id=2]" [Seg.predicate "items" "id" (Lit.int 2)] rfl]
    simp [traverse.eq_def, traversePredItems.eq_def, dlookup, matchesPred, pyEqLit,
      valNum, litNum]

/-- C10: for a null-literal predicate (`[key=null]` / `[key=none]`, any
letter case compiles to the null literal), a map element that lacks the
key entirely matches exactly as an element carrying an explicit null
does: `item.get(key)` yields `None` for a missing key, and the
predicate test for a missing key reduces to comparing `None` with the
literal. -/
theorem null_literal_matches_missing_key :
    (∀ (entries : List (String × Val)) (k : String) (l : Lit),
        dlookup entries k = none →
        matchesPred (Val.dict entries) k l = pyEqLit Val.null l)
    ∧ (∀ (entries : List (String × Val)) (k : String),
        dlookup entries k = none →
        matchesPred (Val.dict entries) k Lit.null = true)
    ∧ coerce_value "null".data = Lit.null
    ∧ coerce_value "NONE".data = Lit.null
    ∧ find_all (Val.dict [("items", Val.list [Val.dict [("x", Val.int 1)]])])
        "items[id=null]" = Except.ok [Val.dict [("x", Val.int 1)]]
    ∧ find_all (Val.dict [("items", Val.list [Val.dict [("id", Val.null)]])])
        "items[id=null]" = Except.ok [Val.dict [("id", Val.null)]] := by
  refine ⟨?_, ?_, rfl, rfl, ?_, ?_⟩
  · intro entries k l h
    simp [matchesPred, h]
  · intro entries k h
    simp [matchesPred, h, pyEqLit, valNum, litNum]
  · rw [find_all_eq (Val.dict [("items", Val.list [Val.dict [("x", Val.int 1)]])])
        "items[id=null]" [Seg.predicate "items" "id" Lit.null] rfl]
    simp [traverse.eq_def, traversePredItems.eq_def, dlookup, matchesPred, pyEqLit,
      valNum, litNum]
  · rw [find_all_eq (Val.dict [("items", Val.list [Val.dict [("id", Val.null)]])])
        "items[id=null]" [Seg.predicate "items" "id" Lit.null] rfl]
    simp [traverse.eq_def, traversePredItems.eq_def, dlookup, matchesPred, pyEqLit,
      valNum, litNum]

/-- C10 witness. -/
theorem null_literal_matches_missing_key_witness :
    matchesPred (Val.dict [("x", Val.int 1)]) "id" Lit.null = true :=
  null_literal_matches_missing_key.2.1 [("x", Val.int 1)] "id" rfl

/-- All-false predicate filters produce nothing. -/
theorem traversePredItems_all_false (xs : List Val) (key : String) (lit : Lit)
    (tail : List Seg) (h : ∀ item ∈ xs, matchesPred item key lit = false) :
    traversePredItems xs key lit tail = [] := by
  induction xs with
  | nil => rw [traversePredItems.eq_def]
  | cons item rest ih =>
    rw [traversePredItems.eq_def]
    simp only [h item (by simp), Bool.false_eq_true, if_false, List.nil_append]
    exact ih fun x hx => h x (by simp [hx])

/-- C7: missing map key, out-of-range index, absent / non-sequence
predicate field, or a predicate matching no element, each yield the
empty sequence; `find_first` is the head of `find_all` and is `none`
exactly when `find_all` is empty. -/
theorem no_match_yields_empty :
    (∀ (entries : List (String × Val)) (k : String) (tail : List Seg),
        dlookup entries k = none →
        traverse (Val.dict entries) (Seg.key k :: tail) = [])
    ∧ (∀ (xs : List Val) (n : Int) (tail : List Seg),
        ¬(-(xs.length : Int) ≤ n ∧ n < (xs.length : Int)) →
        traverse (Val.list xs) (Seg.index n :: tail) = [])
    ∧ (∀ (entries : List (String × Val)) (f k : String) (l : Lit) (tail : List Seg),
        dlookup entries f = none →
        traverse (Val.dict entries) (Seg.predicate f k l :: tail) = [])
    ∧ (∀ (entries : List (String × Val)) (f k : String) (l : Lit) (tail : List Seg)
        (v : Val), dlookup entries f = some v → (∀ xs, v ≠ Val.list xs) →
        traverse (Val.dict entries) (Seg.predicate f k l :: tail) = [])
    ∧ (∀ (entries : List (String × Val)) (f k : String) (l : Lit) (tail : List Seg)
        (xs : List Val), dlookup entries f = some (Val.list xs) →
        (∀ item ∈ xs, matchesPred item k l = false) →
        traverse (Val.dict entries) (Seg.predicate f k l :: tail) = [])
    ∧ (∀ (p : Path) (data : Val),
        Path.find_first p data = (Path.find_all p data).head?
        ∧ (Path.find_first p data = none ↔ Path.find_all p data = [])) := by
  refine ⟨?_, ?_, ?_, ?_, ?_, ?_⟩
  · intro entries k tail h
    rw [traverse.eq_def]
    simp [h]
  · intro xs n tail h
    rw [traverse.eq_def]
    simp only [if_neg h]
  · intro entries f k l tail h
    rw [traverse.eq_def]
    simp [h]
  · intro entries f k l tail v h hne
    rw [traverse.eq_def]
    simp only [h]
    cases v with
    | list xs => exact absurd rfl (hne xs)
    | null => rfl
    | bool b => rfl
    | int n => rfl
    | float q => rfl
    | str s => rfl
    | dict d => rfl
  · intro entries f k l tail xs h hall
    rw [traverse.eq_def]
    simp only [h]
    exact traversePredItems_all_false xs k l tail hall
  · intro p data
    constructor
    · rw [Path.find_first]
      cases Path.find_all p data <;> rfl
    · rw [Path.find_first]
      cases Path.find_all p data <;> simp

/-- C7 witness. -/
theorem no_match_yields_empty_witness :
    traverse (Val.dict [("a", Val.int 1)]) [Seg.key "b"] = []
    ∧ traverse (Val.list [Val.int 1]) [Seg.index 5] = []
    ∧ traverse (Val.dict [("a", Val.int 1)]) [Seg.predicate "b" "id" (Lit.int 1)] = [] :=
  ⟨no_match_yields_empty.1 [("a", Val.int 1)] "b" [] rfl,
   no_match_yields_empty.2.1 [Val.int 1] 5 [] (by decide),
   no_match_yields_empty.2.2.1 [("a", Val.int 1)] "b" "id" (Lit.int 1) [] rfl⟩

/-- C8: literal coercion applies its rules in the fixed order:
case-insensitive `true`/`false` first, then `null`/`none`, then the
numeric parse (float when the raw text contains a dot, else integer),
and only on numeric failure one layer of matching double or single
quotes is stripped; any remaining text stands verbatim as a string.  In
particular `true` never reaches the numeric parse and unquoted digits
beat quote interpretation. -/
theorem coerce_value_rule_order :
    (∀ v : List Char, (⟨v.map Char.toLower⟩ : String) = "true" →
        coerce_value v = Lit.bool true)
    ∧ (∀ v : List Char, (⟨v.map Char.toLower⟩ : String) = "false" →
        coerce_value v = Lit.bool false)
    ∧ (∀ v : List Char, ((⟨v.map Char.toLower⟩ : String) = "null"
          ∨ (⟨v.map Char.toLower⟩ : String) = "none") →
        coerce_value v = Lit.null)
    ∧ (∀ (v : List Char) (l : Lit),
        (⟨v.map Char.toLower⟩ : String) ≠ "true" →
        (⟨v.map Char.toLower⟩ : String) ≠ "false" →
        ¬((⟨v.map Char.toLower⟩ : String) = "null"
          ∨ (⟨v.map Char.toLower⟩ : String) = "none") →
        numericParseOf v = some l → coerce_value v = l)
    ∧ (∀ v : List Char, v.contains '.' = true →
        numericParseOf v = (pyFloatParse v).map Lit.float)
    ∧ (∀ v : List Char, v.contains '.' = false →
        numericParseOf v = (pyIntParse v).map Lit.int)
    ∧ (∀ v : List Char,
        (⟨v.map Char.toLower⟩ : String) ≠ "true" →
        (⟨v.map Char.toLower⟩ : String) ≠ "false" →
        ¬((⟨v.map Char.toLower⟩ : String) = "null"
          ∨ (⟨v.map Char.toLower⟩ : String) = "none") →
        numericParseOf v = none →
        (quotedBy '"' v || quotedBy '\'' v) = true →
        coerce_value v = Lit.str ⟨(v.drop 1).dropLast⟩)
    ∧ (∀ v : List Char,
        (⟨v.map Char.toLower⟩ : String) ≠ "true" →
        (⟨v.map Char.toLower⟩ : String) ≠ "false" →
        ¬((⟨v.map Char.toLower⟩ : String) = "null"
          ∨ (⟨v.map Char.toLower⟩ : String) = "none") →
        numericParseOf v = none →
        (quotedBy '"' v || quotedBy '\'' v) = false →
        coerce_value v = Lit.str ⟨v⟩)
    ∧ coerce_value "true".data = Lit.bool true
    ∧ coerce_value "TRUE".data = Lit.bool true
    ∧ coerce_value "1.5".data = Lit.float (3 / 2)
    ∧ coerce_value "2".data = Lit.int 2
    ∧ coerce_value "'1.5x'".data = Lit.str "1.5x"
    ∧ coerce_value "abc".data = Lit.str "abc" := by
  have hfloat : coerce_value "1.5".data = Lit.float (3 / 2) := by
    have h : coerce_value "1.5".data
        = Lit.float ((digitsToNat ['1'] : Rat) + (digitsToNat ['5'] : Rat) / 10 ^ 1) :=
      rfl
    have h1 : digitsToNat ['1'] = 1 := rfl
    have h5 : digitsToNat ['5'] = 5 := rfl
    rw [h, h1, h5]
    norm_num
  refine ⟨?_, ?_, ?_, ?_, ?_, ?_, ?_, ?_, by decide, by decide, hfloat, by decide,
    by decide, by decide⟩
  · intro v h
    simp [coerce_value, h]
  · intro v h
    simp [coerce_value, h]
  · intro v h
    rcases h with h | h <;> simp [coerce_value, h]
  · intro v l h1 h2 h3 h4
    simp [coerce_value, h1, h2, h3, h4]
  · intro v h
    simp only [numericParseOf, h, ite_true]
  · intro v h
    simp only [numericParseOf, h, Bool.false_eq_true, ite_false]
  · intro v h1 h2 h3 h4 h5
    simp [coerce_value, h1, h2, h3, h4, h5]
  · intro v h1 h2 h3 h4 h5
    simp [coerce_value, h1, h2, h3, h4, h5]

/-- C8 witness. -/
theorem coerce_value_rule_order_witness :
    coerce_value "7".data = Lit.int 7 :=
  coerce_value_rule_order.2.2.2.1 "7".data (Lit.int 7)
    (by decide) (by decide) (by decide) rfl

/-- C9: the free one-shot functions are compile-then-delegate, and
`find_first` is the first produced value of `find_all` (empty option
when the sequence is empty). -/
theorem facade_composes :
    (∀ (data : Val) (s : String),
        find_all data s = (Path.make s).map (fun p => Path.find_all p data))
    ∧ (∀ (data : Val) (s : String),
        find_first data s = (Path.make s).map (fun p => Path.find_first p data))
    ∧ (∀ (p : Path) (data : Val),
        Path.find_first p data = (Path.find_all p data).head?)
    ∧ (∀ (data : Val) (s : String) (segs : List Seg),
        parse_path s = Except.ok segs →
        find_all data s = Except.ok (traverse data segs)
        ∧ find_first data s = Except.ok (traverse data segs).head?) := by
  refine ⟨fun data s => rfl, fun data s => rfl, ?_, ?_⟩
  · intro p data
    rw [Path.find_first]
    cases Path.find_all p data <;> rfl
  · intro data s segs h
    refine ⟨find_all_eq data s segs h, ?_⟩
    rw [find_first_eq data s segs h]
    congr 1
    rw [Path.find_first]
    cases hfa : Path.find_all ⟨s, segs⟩ data with
    | nil =>
      rw [show traverse data segs = [] from hfa]
      rfl
    | cons a as =>
      rw [show traverse data segs = a :: as from hfa]
      rfl

/-- C9 witness. -/
theorem facade_composes_witness :
    find_all (Val.dict [("a", Val.int 1)]) "a"
      = Except.ok (traverse (Val.dict [("a", Val.int 1)]) [Seg.key "a"])
    ∧ find_first (Val.dict [("a", Val.int 1)]) "a"
      = Except.ok (traverse (Val.dict [("a", Val.int 1)]) [Seg.key "a"]).head? :=
  facade_composes.2.2.2 (Val.dict [("a", Val.int 1)]) "a" [Seg.key "a"] rfl

end Dotselect
